import Mathlib

/-!
Verification of the meal-stipend calculation backend (Firebase Functions, TypeScript).

The development shallowly embeds the core pipeline:
* JavaScript string primitives used by the code (`split`, first-occurrence
  `replace`, `includes`, `parseInt`, `parseFloat`, truthiness) as executable
  Lean functions on `String` / `List Char`;
* the data model (`ExcelRowData`, `EmployeeResult`);
* the filename utilities (`dateUtils.ts` / `fileNameUtils.ts`, both observed
  revisions of `cleanACGTemplateFileName`);
* the calculation service (`calculationService.ts`);
* the ExcelJS-based extraction service (`storageService.ts` / `excelService.ts`):
  cell values, `getActualValue`, row skipping, range parsing, `extractData`,
  `processExcelFile`, and the per-file catch-and-continue loop of the controller.

Numbers are modelled exactly: counts as `Nat`, parsed integers as `Int`,
currency amounts as `ℚ` (JavaScript numbers on the in-range integral and
decimal values the pipeline manipulates behave exactly; float rounding is out
of scope).  `parseFloat` is modelled with full syntactic fidelity: sign, the
`Infinity` literal, digits, fraction and exponent part.  Its two infinite
outcomes have no exact-rational representative, so the row loop consumes the
finite projection `jsParseFloat` and the amount theorems state finiteness
through `jsParseFloatFull` wherever the distinction matters.  Locale-specific
collation in `localeCompare` is abstracted as lexicographic string order.
-/

/-! ### JavaScript string primitives -/

/-- Model of `str.split(sep)` for a single-character separator, on character
lists.  As in JavaScript, the result is never empty and splitting the empty
string gives `[[]]`. -/
def jsSplit (sep : Char) : List Char → List (List Char)
  | [] => [[]]
  | c :: rest =>
    if c = sep then [] :: jsSplit sep rest
    else
      match jsSplit sep rest with
      | s :: ss => (c :: s) :: ss
      | [] => [[c]]

/-- Model of `str.replace(pattern, "")` for a plain-string pattern: remove the
first occurrence of `p`, scanning from the left; leave the list unchanged when
`p` does not occur. -/
def removeFirstOcc (p : List Char) : List Char → List Char
  | [] => []
  | c :: rest =>
    if p.isPrefixOf (c :: rest) then (c :: rest).drop p.length
    else c :: removeFirstOcc p rest

/-- Model of `str.includes(pattern)`: does `p` occur contiguously in the list? -/
def listContainsSub (p : List Char) : List Char → Bool
  | [] => p.isEmpty
  | c :: rest => p.isPrefixOf (c :: rest) || listContainsSub p rest

/-- `s.includes(pat)` on strings. -/
def jsIncludes (s pat : String) : Bool :=
  listContainsSub pat.data s.data

/-- `s.replace(pat, "")` on strings (first occurrence only). -/
def jsReplaceOnce (s pat : String) : String :=
  ⟨removeFirstOcc pat.data s.data⟩

/-- Digit run to a natural number (the strings fed to this are digit runs). -/
def digitsToNat (ds : List Char) : Nat :=
  ds.foldl (fun a c => a * 10 + (c.toNat - 48)) 0

/-- Model of `parseInt(s, 10)`: skip leading whitespace, optional sign, then
a maximal run of decimal digits; `none` (NaN) when no digit is found. -/
def jsParseIntList (l : List Char) : Option Int :=
  match l.dropWhile (fun c => c.isWhitespace) with
  | '-' :: rest =>
    let ds := rest.takeWhile (fun c => c.isDigit)
    if ds.isEmpty then none else some (-(digitsToNat ds : Int))
  | '+' :: rest =>
    let ds := rest.takeWhile (fun c => c.isDigit)
    if ds.isEmpty then none else some (digitsToNat ds : Int)
  | l' =>
    let ds := l'.takeWhile (fun c => c.isDigit)
    if ds.isEmpty then none else some (digitsToNat ds : Int)

/-- `parseInt(s, 10)` on strings. -/
def jsParseInt (s : String) : Option Int :=
  jsParseIntList s.data

/-- A `parseFloat` outcome: NaN, a signed infinity (from the `Infinity`
literal), or a finite value, exact as a rational. -/
inductive JsFloat where
  | nan : JsFloat
  | infinite : Bool → JsFloat
  | finite : ℚ → JsFloat
deriving DecidableEq

/-- Signed digit run of an exponent part; a malformed suffix contributes the
exponent `0`, as the longest-valid-prefix rule keeps the mantissa alone. -/
def jsParseExponentSigned (l : List Char) : Int :=
  match l with
  | '-' :: r =>
    let ds := r.takeWhile (fun c => c.isDigit)
    if ds.isEmpty then 0 else -(digitsToNat ds : Int)
  | '+' :: r =>
    let ds := r.takeWhile (fun c => c.isDigit)
    if ds.isEmpty then 0 else (digitsToNat ds : Int)
  | r =>
    let ds := r.takeWhile (fun c => c.isDigit)
    if ds.isEmpty then 0 else (digitsToNat ds : Int)

/-- Exponent part of a decimal literal: `e` or `E`, an optional sign and a
digit run; anything else contributes the exponent `0`. -/
def jsParseExponent (l : List Char) : Int :=
  match l with
  | 'e' :: r => jsParseExponentSigned r
  | 'E' :: r => jsParseExponentSigned r
  | _ => 0

/-- Exact value of the decimal literal `ip.fp × 10^e`: the two digit runs
concatenate to the integer `N = digits (ip ++ fp)`, and the value is
`N · 10 ^ (e - |fp|)`, built as one normalized fraction. -/
def jsDecimalValue (ip fp : List Char) (e : Int) : ℚ :=
  match e - (fp.length : Int) with
  | .ofNat d => mkRat ((digitsToNat (ip ++ fp) : Nat) * 10 ^ d) 1
  | .negSucc d => mkRat (digitsToNat (ip ++ fp)) (10 ^ (d + 1))

/-- Unsigned body of `parseFloat`: the literal `Infinity`, or digits with an
optional fraction and exponent part; NaN when there is no digit on either
side of the decimal point. -/
def jsParseFloatBody (l : List Char) : JsFloat :=
  if ("Infinity".data).isPrefixOf l then .infinite false
  else
    let ip := l.takeWhile (fun c => c.isDigit)
    match l.drop ip.length with
    | '.' :: r2 =>
      let fp := r2.takeWhile (fun c => c.isDigit)
      if ip.isEmpty && fp.isEmpty then .nan
      else .finite (jsDecimalValue ip fp (jsParseExponent (r2.drop fp.length)))
    | rest =>
      if ip.isEmpty then .nan
      else .finite (jsDecimalValue ip [] (jsParseExponent rest))

/-- Model of `parseFloat(s)`: skip leading whitespace, optional sign, then
`Infinity` or an unsigned decimal with optional fraction and exponent. -/
def jsParseFloatFull (s : String) : JsFloat :=
  match s.data.dropWhile (fun c => c.isWhitespace) with
  | '-' :: rest =>
    match jsParseFloatBody rest with
    | .nan => .nan
    | .infinite _ => .infinite true
    | .finite q => .finite (-q)
  | '+' :: rest => jsParseFloatBody rest
  | l' => jsParseFloatBody l'

/-- Finite projection of `parseFloat`, the form the row loop consumes: `none`
for NaN and — a deliberate restriction of the exact-rational model — for the
two infinite outcomes, which no `ℚ`-valued `amount` can carry; the amount
theorems therefore state their claims through `jsParseFloatFull` wherever
that distinction matters. -/
def jsParseFloat (s : String) : Option ℚ :=
  match jsParseFloatFull s with
  | .finite q => some q
  | _ => none

/-! ### Data model (`types.ts`) -/

/-- One normalized attendance row (`ExcelRowData` in `types.ts`). -/
structure ExcelRowData where
  year : Int
  month : Int
  workType : String
  attendance : String
  amount : ℚ
deriving DecidableEq

/-- Per-employee aggregation result (`EmployeeResult` in `types.ts`, with the
`downloadUrl` field of the calculation service). -/
structure EmployeeResult where
  name : String
  workDay : Nat
  holiday : Nat
  weekendWork : Nat
  total : ℚ
  balance : ℚ
  usedAmount : ℚ
  downloadUrl : String
deriving DecidableEq

/-! ### Filename utilities (`dateUtils.ts` / `fileNameUtils.ts`) -/

/-- `removeFileExtension`: substring before the last dot, or the whole string
when it has no dot. -/
def removeFileExtension (s : String) : String :=
  if '.' ∈ s.data then ⟨(((s.data.reverse).dropWhile (fun c => c != '.')).drop 1).reverse⟩
  else s

/-- `generateACGTemplatePrefix` from `dateUtils.ts`. -/
def generateACGTemplatePrefix (sheetYear sheetMonth : Int) : String :=
  "ACG_식대 정리_Template_" ++ toString sheetYear ++ "년 " ++
    (if sheetMonth ≤ 6 then "상반기" else "하반기") ++ "_"

/-- `cleanACGTemplateFileName` from `dateUtils.ts` (the prefix-stripping
revision).  The JavaScript guard `if (sheetYear && sheetMonth)` is truthiness:
a missing argument or the number `0` selects the hardcoded legacy prefix. -/
def cleanACGTemplateFileName (fileName : String) (sheetYear sheetMonth : Option Int) : String :=
  let cleanedName := removeFileExtension fileName
  match sheetYear, sheetMonth with
  | some y, some m =>
    if y ≠ 0 ∧ m ≠ 0 then jsReplaceOnce cleanedName (generateACGTemplatePrefix y m)
    else jsReplaceOnce cleanedName "ACG_식대 정리_Template_25년 하반기_"
  | _, _ => jsReplaceOnce cleanedName "ACG_식대 정리_Template_25년 하반기_"

/-- `cleanACGTemplateFileName` from `fileNameUtils.ts` (the suffix-based
revision): strip the extension; when the result is nonempty,
`split("_").pop() || cleanedName`; when it is empty, fall back to the original
`fileName`. -/
def cleanACGTemplateFileNameV2 (fileName : String) : String :=
  let cleanedName := removeFileExtension fileName
  if cleanedName ≠ "" then
    let lastSeg := (jsSplit '_' cleanedName.data).getLastD []
    if lastSeg.isEmpty then cleanedName else ⟨lastSeg⟩
  else fileName

/-! ### Calculation service (`calculationService.ts`) -/

/-- `CalculationService.DAILY_AMOUNT`. -/
def DAILY_AMOUNT : ℚ := 10000

/-- `CalculationService.calculateWorkDays`. -/
def calculateWorkDays (data : List ExcelRowData) (targetMonth : Int) : Nat :=
  (data.filter (fun row => row.month == targetMonth && row.workType == "업무일")).length

/-- `CalculationService.calculateWeekendWork`. -/
def calculateWeekendWork (data : List ExcelRowData) (targetMonth : Int) : Nat :=
  (data.filter (fun row =>
    row.month == targetMonth && row.workType == "휴일" && row.attendance == "근무")).length

/-- `CalculationService.calculateHolidays`. -/
def calculateHolidays (data : List ExcelRowData) (targetMonth : Int) : Nat :=
  (data.filter (fun row => row.month == targetMonth && jsIncludes row.attendance "휴무")).length

/-- `CalculationService.calculateUsedAmount`. -/
def calculateUsedAmount (data : List ExcelRowData) (targetMonth : Int) : ℚ :=
  (data.filter (fun row => row.month == targetMonth)).foldl (fun sum row => sum + row.amount) 0

/-- `CalculationService.calculateTotalAmount`. -/
def calculateTotalAmount (workDays weekendWork holidays : Nat) : ℚ :=
  (workDays : ℚ) * DAILY_AMOUNT + (weekendWork : ℚ) * DAILY_AMOUNT - (holidays : ℚ) * DAILY_AMOUNT

/-- `CalculationService.calculateEmployee` (the revision that normalizes the
employee name with `cleanACGTemplateFileName(employeeName, targetYear,
targetMonth)`). -/
def calculateEmployee (data : List ExcelRowData) (employeeName : String)
    (targetYear targetMonth : Int) (downloadUrl : String) : EmployeeResult :=
  let workDay := calculateWorkDays data targetMonth
  let weekendWork := calculateWeekendWork data targetMonth
  let holiday := calculateHolidays data targetMonth
  let usedAmount := calculateUsedAmount data targetMonth
  let total := calculateTotalAmount workDay weekendWork holiday
  let balance := total - usedAmount
  let cleanedName := cleanACGTemplateFileName employeeName (some targetYear) (some targetMonth)
  { name := cleanedName, workDay := workDay, holiday := holiday, weekendWork := weekendWork,
    total := total, balance := balance, usedAmount := usedAmount, downloadUrl := downloadUrl }

/-- `CalculationService.calculateAllEmployees`: the employee-data `Map` is an
association list in insertion order, `downloadUrlMap.get(name) || ""` is a
lookup defaulting to the empty string, and `Array.prototype.sort` (stable
since ES2019) with the comparator `a.name.localeCompare(b.name)` is a stable
merge sort by name. -/
def calculateAllEmployees (employeeDataMap : List (String × List ExcelRowData))
    (downloadUrlMap : List (String × String)) (targetYear targetMonth : Int) :
    List EmployeeResult :=
  (employeeDataMap.map (fun e =>
      calculateEmployee e.2 e.1 targetYear targetMonth ((downloadUrlMap.lookup e.1).getD ""))).mergeSort
    (fun a b => decide (a.name ≤ b.name))

/-! ### ExcelJS extraction service (`excelService.ts`, ExcelJS revision) -/

/-- ExcelJS cell value as seen by `extractData`: `null`, a string, a number,
or a rich object.  A rich object carries optional `text`, `result` and
`formula` fields (each modelled as its stringified content when present);
`"f in obj && obj.f !== undefined"` is `isSome` of the field. -/
inductive CellValue where
  | vNull : CellValue
  | vStr : String → CellValue
  | vNum : Int → CellValue
  | vObj : Option String → Option String → Option String → CellValue
deriving DecidableEq

/-- JavaScript truthiness of a cell value: `null`, the empty string and the
number `0` are falsy; every object is truthy. -/
def jsTruthy : CellValue → Bool
  | .vNull => false
  | .vStr s => s != ""
  | .vNum n => n != 0
  | .vObj _ _ _ => true

/-- `String(v)` on a cell value.  A plain object stringifies to
`"[object Object]"`. -/
def jsString : CellValue → String
  | .vNull => "null"
  | .vStr s => s
  | .vNum n => toString n
  | .vObj _ _ _ => "[object Object]"

/-- `getActualValue` from `extractData`: `null`/`undefined` give `""`; an
object yields its `text`, else `result`, else `formula` field; everything
else is `String(v)`. -/
def getActualValue : CellValue → String
  | .vNull => ""
  | .vObj t r f =>
    match t with
    | some s => s
    | none =>
      match r with
      | some s => s
      | none =>
        match f with
        | some s => s
        | none => jsString (.vObj t r f)
  | v => jsString v

/-- One worksheet row as used by the loop: the emptiness test
`!row.values || row.values.length <= 1` and `row.getCell(col).value`. -/
structure XRow where
  isEmptyValues : Bool
  getCell : Nat → CellValue

/-- A worksheet: `worksheet.getRow(rowIndex)`. -/
structure Worksheet where
  getRow : Nat → XRow

/-- A workbook: the named sheets, `workbook.getWorksheet(name)` being the
first association for the name. -/
abbrev Workbook := List (String × Worksheet)

/-- `ExcelService.getWorksheet` (on an already-read workbook). -/
def getWorksheet (wb : Workbook) (sheetName : String) : Option Worksheet :=
  wb.lookup sheetName

/-- `DEFAULT_SETTINGS.sheetName`. -/
def defaultSheetName : String := "내역"

/-- `DEFAULT_SETTINGS.dataRange`. -/
def defaultDataRange : String := "B3:L204"

/-- `columnToNumber` (A=1, B=2, …). -/
def columnToNumber (column : String) : Nat :=
  column.data.foldl (fun r c => r * 26 + (c.toNat - 64)) 0

/-- Character class `[A-Z]`. -/
def isUpperAZ (c : Char) : Bool := 'A' ≤ c && c ≤ 'Z'

/-- Anchored match of the range pattern `([A-Z]+)(\d+):([A-Z]+)(\d+)` at the
head of the list, returning the four capture groups.  The character classes
are disjoint, so greedy runs are exactly the regex semantics. -/
def matchRangeAt (l : List Char) : Option (List Char × List Char × List Char × List Char) :=
  let g1 := l.takeWhile isUpperAZ
  if g1.isEmpty then none
  else
    let l1 := l.drop g1.length
    let g2 := l1.takeWhile (fun c => c.isDigit)
    if g2.isEmpty then none
    else
      match l1.drop g2.length with
      | ':' :: l2 =>
        let g3 := l2.takeWhile isUpperAZ
        if g3.isEmpty then none
        else
          let g4 := (l2.drop g3.length).takeWhile (fun c => c.isDigit)
          if g4.isEmpty then none else some (g1, g2, g3, g4)
      | _ => none

/-- Unanchored `range.match(...)`: first position where the pattern matches. -/
def findRangeMatch : List Char → Option (List Char × List Char × List Char × List Char)
  | [] => none
  | c :: rest => (matchRangeAt (c :: rest)).orElse (fun _ => findRangeMatch rest)

/-- The two failure conditions of extraction. -/
inductive ExtractError where
  | sheetNotFound : String → ExtractError
  | rangeFormatInvalid : String → ExtractError
deriving DecidableEq

/-- The body of the row loop of `extractData`: skip when the row is empty,
when the year or month cell is falsy, or when `parseInt` of their stringified
values is NaN; otherwise emit the row, with
`amount = parseFloat(String(amountValue || 0))` defaulting to `0` on NaN and
work-type/attendance resolved through `getActualValue`. -/
def processRow (row : XRow) (startCol : Nat) : Option ExcelRowData :=
  if row.isEmptyValues then none
  else
    let yearValue := row.getCell startCol
    let monthValue := row.getCell (startCol + 1)
    let workTypeValue := row.getCell (startCol + 4)
    let attendanceValue := row.getCell (startCol + 6)
    let amountValue := row.getCell (startCol + 8)
    if !(jsTruthy yearValue) || !(jsTruthy monthValue) then none
    else
      match jsParseInt (jsString yearValue), jsParseInt (jsString monthValue) with
      | some year, some month =>
        let amountOpt := jsParseFloat (jsString (if jsTruthy amountValue then amountValue else .vNum 0))
        some { year := year, month := month, workType := getActualValue workTypeValue,
               attendance := getActualValue attendanceValue, amount := amountOpt.getD 0 }
      | _, _ => none

/-- `ExcelService.extractData` (ExcelJS revision): parse the range with the
regex (throwing `rangeFormatInvalid` when it does not match), then run the
row loop from `startRow` to `endRow` over `getRow`/`getCell`. -/
def extractData (ws : Worksheet) (range : String) : Except ExtractError (List ExcelRowData) :=
  match findRangeMatch range.data with
  | none => .error (.rangeFormatInvalid range)
  | some (g1, g2, _, g4) =>
    let startCol := columnToNumber ⟨g1⟩
    let startRow := digitsToNat g2
    let endRow := digitsToNat g4
    .ok ((List.range' startRow (endRow + 1 - startRow)).filterMap
      (fun i => processRow (ws.getRow i) startCol))

/-- `ExcelService.processExcelFile`: look the sheet up (defaulting to `"내역"`),
throw `sheetNotFound` when it is absent, else extract over the range
(defaulting to `"B3:L204"`). -/
def processExcelFile (wb : Workbook) (sheetName : Option String) (range : Option String) :
    Except ExtractError (List ExcelRowData) :=
  match getWorksheet wb (sheetName.getD defaultSheetName) with
  | none => .error (.sheetNotFound (sheetName.getD defaultSheetName))
  | some ws => extractData ws (range.getD defaultDataRange)

/-- The per-file loop of `CalculationController.calculate`: each file is
processed with `processExcelFile(buffer)` under its own try/catch, and only
successful files contribute an entry to the employee-data map (name
resolution and download-url generation are collaborator calls and do not
affect which entries exist). -/
def buildEmployeeData (files : List (String × Workbook)) : List (String × List ExcelRowData) :=
  files.filterMap (fun fw =>
    match processExcelFile fw.2 none none with
    | .ok rows => some (fw.1, rows)
    | .error _ => none)

/-! ### Helper lemmas -/

theorem beq_as_decide {α : Type _} [BEq α] [LawfulBEq α] [DecidableEq α] (a b : α) :
    (a == b) = decide (a = b) := by
  by_cases h : a = b <;> simp [h]

theorem foldl_add_amount (l : List ExcelRowData) (init : ℚ) :
    l.foldl (fun sum row => sum + row.amount) init = init + (l.map ExcelRowData.amount).sum := by
  induction l generalizing init with
  | nil => simp
  | cons r t ih => simp only [List.foldl_cons, ih, List.map_cons, List.sum_cons]; ring

theorem listContainsSub_iff (p l : List Char) :
    listContainsSub p l = true ↔ p <:+: l := by
  induction l with
  | nil =>
    simp [listContainsSub, List.isEmpty_iff, List.infix_nil]
  | cons c rest ih =>
    simp [listContainsSub, ih, List.infix_cons_iff]

theorem listContainsSub_eq_decide (p l : List Char) :
    listContainsSub p l = decide (p <:+: l) := by
  by_cases h : p <:+: l
  · simp [h, (listContainsSub_iff p l).mpr h]
  · simp only [h, decide_False]
    exact Bool.eq_false_iff.mpr (fun hc => h ((listContainsSub_iff p l).mp hc))

theorem isPrefixOf_append (p l : List Char) : p.isPrefixOf (p ++ l) = true := by
  simp [List.isPrefixOf_iff_prefix, List.prefix_append]

theorem removeFirstOcc_append (p l : List Char) : removeFirstOcc p (p ++ l) = l := by
  cases p with
  | nil =>
    cases l with
    | nil => rfl
    | cons c rest => simp [removeFirstOcc, List.isPrefixOf]
  | cons a p' =>
    show removeFirstOcc (a :: p') (a :: (p' ++ l)) = l
    rw [removeFirstOcc]
    rw [show (a :: p').isPrefixOf (a :: (p' ++ l)) = true from isPrefixOf_append (a :: p') l]
    simp [List.drop_left']

theorem removeFileExtension_append (l ext : List Char) (he : '.' ∉ ext) :
    removeFileExtension ⟨l ++ '.' :: ext⟩ = ⟨l⟩ := by
  have hmem : '.' ∈ l ++ '.' :: ext := List.mem_append_right _ (List.mem_cons_self _ _)
  rw [removeFileExtension]
  rw [if_pos hmem]
  have hrev : (l ++ '.' :: ext).reverse = ext.reverse ++ '.' :: l.reverse := by
    simp [List.reverse_append]
  rw [show (String.mk (l ++ '.' :: ext)).data = l ++ '.' :: ext from rfl, hrev]
  rw [List.dropWhile_append_of_pos (fun a ha => by
    have : a ∈ ext := List.mem_reverse.mp ha
    simp only [bne_iff_ne, ne_eq]
    exact fun hc => he (hc ▸ this))]
  rw [List.dropWhile_cons_of_neg (by simp)]
  simp

theorem jsSplit_ne_nil (sep : Char) (l : List Char) : jsSplit sep l ≠ [] := by
  cases l with
  | nil => simp [jsSplit]
  | cons c rest =>
    rw [jsSplit]
    split
    · simp
    · split <;> simp

theorem jsSplit_of_not_mem (sep : Char) {l : List Char} (h : sep ∉ l) :
    jsSplit sep l = [l] := by
  induction l with
  | nil => rfl
  | cons c rest ih =>
    have hc : ¬(c = sep) := fun hc => h (hc ▸ List.mem_cons_self _ _)
    have h' : sep ∉ rest := fun hm => h (List.mem_cons_of_mem _ hm)
    rw [jsSplit, if_neg hc, ih h']

theorem jsSplit_two_of_mem (sep : Char) {l : List Char} (h : sep ∈ l) :
    ∃ s ss, jsSplit sep l = s :: ss ∧ ss ≠ [] := by
  induction l with
  | nil => cases h
  | cons c rest ih =>
    by_cases hc : c = sep
    · subst hc
      exact ⟨[], jsSplit c rest, by rw [jsSplit, if_pos rfl], jsSplit_ne_nil _ _⟩
    · have h' : sep ∈ rest := by
        rcases List.mem_cons.mp h with h1 | h1
        · exact absurd h1.symm hc
        · exact h1
      obtain ⟨s, ss, hs, hss⟩ := ih h'
      exact ⟨c :: s, ss, by rw [jsSplit, if_neg hc, hs], hss⟩

theorem getLastD_jsSplit_append (sep : Char) {b : List Char} (hb : sep ∉ b) (a : List Char) :
    (jsSplit sep (a ++ sep :: b)).getLastD [] = b := by
  induction a with
  | nil =>
    rw [List.nil_append, jsSplit, if_pos rfl, jsSplit_of_not_mem sep hb]
    rfl
  | cons c a ih =>
    have hmem : sep ∈ a ++ sep :: b := List.mem_append_right _ (List.mem_cons_self _ _)
    obtain ⟨s, ss, hs, hss⟩ := jsSplit_two_of_mem sep hmem
    by_cases hc : c = sep
    · subst hc
      rw [List.cons_append, jsSplit, if_pos rfl, List.getLastD_cons]
      exact ih
    · rw [List.cons_append, jsSplit, if_neg hc, hs]
      show ((c :: s) :: ss).getLastD [] = b
      rw [hs, List.getLastD_cons] at ih
      rw [List.getLastD_cons]
      cases ss with
      | nil => exact absurd rfl hss
      | cons s2 ss2 =>
        rw [List.getLastD_cons] at ih ⊢
        exact ih

/-! ### Claims about the balance calculator and batch aggregator -/

/-- Claim C1: for every row sequence and target month, `calculateEmployee`
returns `usedAmount` equal to the sum of `amount` over all rows of the target
month (whatever their category; `0` when none match), `total` equal to
`(workDay + weekendWork - holiday) * 10000` (negative when `holiday` exceeds
`workDay + weekendWork`), and `balance` equal to `total - usedAmount`
exactly. -/
theorem calculateEmployee_spec (data : List ExcelRowData) (employeeName : String)
    (targetYear targetMonth : Int) (downloadUrl : String) :
    (calculateEmployee data employeeName targetYear targetMonth downloadUrl).usedAmount
        = ((data.filter (fun row => decide (row.month = targetMonth))).map ExcelRowData.amount).sum
    ∧ (calculateEmployee data employeeName targetYear targetMonth downloadUrl).total
        = (((calculateEmployee data employeeName targetYear targetMonth downloadUrl).workDay : ℚ)
            + ((calculateEmployee data employeeName targetYear targetMonth downloadUrl).weekendWork : ℚ)
            - ((calculateEmployee data employeeName targetYear targetMonth downloadUrl).holiday : ℚ))
            * 10000
    ∧ (calculateEmployee data employeeName targetYear targetMonth downloadUrl).balance
        = (calculateEmployee data employeeName targetYear targetMonth downloadUrl).total
            - (calculateEmployee data employeeName targetYear targetMonth downloadUrl).usedAmount := by
  refine ⟨?_, ?_, rfl⟩
  · show calculateUsedAmount data targetMonth = _
    have hp : (fun row : ExcelRowData => row.month == targetMonth)
        = (fun row : ExcelRowData => decide (row.month = targetMonth)) :=
      funext fun row => beq_as_decide _ _
    rw [calculateUsedAmount, hp, foldl_add_amount, zero_add]
  · show calculateTotalAmount (calculateWorkDays data targetMonth)
        (calculateWeekendWork data targetMonth) (calculateHolidays data targetMonth)
      = ((calculateWorkDays data targetMonth : ℚ) + (calculateWeekendWork data targetMonth : ℚ)
          - (calculateHolidays data targetMonth : ℚ)) * 10000
    rw [calculateTotalAmount, DAILY_AMOUNT]
    ring

/-- Claim C2: `workDay` counts the rows of the target month with work type
literally `"업무일"`; `weekendWork` counts those with work type `"휴일"` and
attendance `"근무"`; `holiday` counts those whose attendance contains the
substring `"휴무"` anywhere. -/
theorem calculateCounts_spec (data : List ExcelRowData) (targetMonth : Int) :
    calculateWorkDays data targetMonth
        = data.countP (fun row => decide (row.month = targetMonth ∧ row.workType = "업무일"))
    ∧ calculateWeekendWork data targetMonth
        = data.countP (fun row =>
            decide (row.month = targetMonth ∧ row.workType = "휴일" ∧ row.attendance = "근무"))
    ∧ calculateHolidays data targetMonth
        = data.countP (fun row =>
            decide (row.month = targetMonth ∧ "휴무".data <:+: row.attendance.data)) := by
  refine ⟨?_, ?_, ?_⟩
  · rw [calculateWorkDays, ← List.countP_eq_length_filter]
    congr 1
    funext row
    rw [beq_as_decide, beq_as_decide, Bool.decide_and]
  · rw [calculateWeekendWork, ← List.countP_eq_length_filter]
    congr 1
    funext row
    rw [beq_as_decide, beq_as_decide, beq_as_decide, Bool.decide_and, Bool.decide_and, Bool.and_assoc]
  · rw [calculateHolidays, ← List.countP_eq_length_filter]
    congr 1
    funext row
    rw [beq_as_decide, jsIncludes, listContainsSub_eq_decide, Bool.decide_and]

/-- Claim C3: the batch result of `calculateAllEmployees` is sorted
lexicographically ascending by the normalized display name (the `name` field
produced by `cleanACGTemplateFileName`, not the raw key), it is a permutation
of the per-employee results in map order, and the order is stable: a pair of
results with equal names keeps its input order. -/
theorem calculateAllEmployees_sorted (employeeDataMap : List (String × List ExcelRowData))
    (downloadUrlMap : List (String × String)) (targetYear targetMonth : Int) :
    (calculateAllEmployees employeeDataMap downloadUrlMap targetYear targetMonth).Pairwise
        (fun a b => a.name ≤ b.name)
    ∧ List.Perm (calculateAllEmployees employeeDataMap downloadUrlMap targetYear targetMonth)
        (employeeDataMap.map (fun e =>
            calculateEmployee e.2 e.1 targetYear targetMonth ((downloadUrlMap.lookup e.1).getD "")))
    ∧ ∀ a b : EmployeeResult, a.name = b.name →
        List.Sublist [a, b] (employeeDataMap.map (fun e =>
            calculateEmployee e.2 e.1 targetYear targetMonth ((downloadUrlMap.lookup e.1).getD ""))) →
        List.Sublist [a, b]
          (calculateAllEmployees employeeDataMap downloadUrlMap targetYear targetMonth) := by
  have trans : ∀ a b c : EmployeeResult,
      decide (a.name ≤ b.name) → decide (b.name ≤ c.name) → decide (a.name ≤ c.name) := by
    intro a b c hab hbc
    simp only [decide_eq_true_eq] at hab hbc ⊢
    exact le_trans hab hbc
  have total : ∀ a b : EmployeeResult,
      decide (a.name ≤ b.name) || decide (b.name ≤ a.name) := by
    intro a b
    simp only [Bool.or_eq_true, decide_eq_true_eq]
    exact le_total _ _
  refine ⟨?_, List.mergeSort_perm _ _, ?_⟩
  · exact (List.sorted_mergeSort trans total _).imp (fun h => of_decide_eq_true h)
  · intro a b hname hsub
    exact List.pair_sublist_mergeSort trans total (by rw [hname]; simp) hsub

/-- Raw key of the first employee in the claim C3 witness: a file name that
carries the 2025 first-half template boilerplate. -/
def c3Key1 : String := "ACG_식대 정리_Template_2025년 상반기_김.xlsx"

/-- Raw key of the second employee in the claim C3 witness: a different raw
key whose normalized display name ties with the first. -/
def c3Key2 : String := "김.xlsx"

/-- Witness for claim C3: two distinct raw keys normalize to the same display
name, and the aggregated output keeps their input order. -/
theorem calculateAllEmployees_sorted_witness :
    (calculateEmployee [] c3Key1 2025 3 "").name = (calculateEmployee [] c3Key2 2025 3 "").name
    ∧ List.Sublist [calculateEmployee [] c3Key1 2025 3 "", calculateEmployee [] c3Key2 2025 3 ""]
        (calculateAllEmployees [(c3Key1, []), (c3Key2, [])] [] 2025 3) := by
  have hname : (calculateEmployee [] c3Key1 2025 3 "").name
      = (calculateEmployee [] c3Key2 2025 3 "").name := by decide
  exact ⟨hname,
    (calculateAllEmployees_sorted [(c3Key1, []), (c3Key2, [])] [] 2025 3).2.2 _ _ hname
      (List.Sublist.refl _)⟩

/-! ### Claims about the name normalizer -/

/-- Counterexample to claim C8 as stated: the guard `if (sheetYear &&
sheetMonth)` is JavaScript truthiness, so the supplied year `0` selects the
hardcoded legacy prefix instead of the generated `"…_0년 상반기_"` one, and the
template prefix is not removed. -/
theorem cleanACGTemplateFileName_year0_counterexample :
    cleanACGTemplateFileName "ACG_식대 정리_Template_0년 상반기_홍길동.xlsx" (some 0) (some 3)
        = "ACG_식대 정리_Template_0년 상반기_홍길동"
    ∧ cleanACGTemplateFileName "ACG_식대 정리_Template_0년 상반기_홍길동.xlsx" (some 0) (some 3)
        ≠ "홍길동" :=
  ⟨by decide, by decide⟩

/-- Claim C8 (amended: the supplied year and month must be nonzero, since the
truthiness guard treats `0` as not supplied): with nonzero year and month
supplied, `cleanACGTemplateFileName` removes the extension and then the
generated template prefix, whose period half is `"상반기"` for months ≤ 6 and
`"하반기"` otherwise; the stated round-trip example holds; and without
year/month the hardcoded legacy prefix `"ACG_식대 정리_Template_25년 하반기_"` is
stripped instead. -/
theorem cleanACGTemplateFileName_spec :
    cleanACGTemplateFileName "ACG_식대 정리_Template_2025년 상반기_홍길동.xlsx" (some 2025) (some 3)
        = "홍길동"
    ∧ (∀ (y m : Int) (rest : String), y ≠ 0 → m ≠ 0 →
        cleanACGTemplateFileName (generateACGTemplatePrefix y m ++ rest ++ ".xlsx")
          (some y) (some m) = rest)
    ∧ (∀ (y m : Int), 1 ≤ m → m ≤ 6 →
        generateACGTemplatePrefix y m
          = "ACG_식대 정리_Template_" ++ toString y ++ "년 " ++ "상반기" ++ "_")
    ∧ (∀ (y m : Int), 7 ≤ m → m ≤ 12 →
        generateACGTemplatePrefix y m
          = "ACG_식대 정리_Template_" ++ toString y ++ "년 " ++ "하반기" ++ "_")
    ∧ (∀ rest : String,
        cleanACGTemplateFileName ("ACG_식대 정리_Template_25년 하반기_" ++ rest ++ ".xlsx")
          none none = rest) := by
  refine ⟨by decide, ?_, ?_, ?_, ?_⟩
  · intro y m rest hy hm
    have hfile : generateACGTemplatePrefix y m ++ rest ++ ".xlsx"
        = (⟨((generateACGTemplatePrefix y m).data ++ rest.data) ++ '.' :: ['x', 'l', 's', 'x']⟩ :
            String) := by
      apply String.ext
      simp
    simp only [cleanACGTemplateFileName]
    rw [if_pos ⟨hy, hm⟩, hfile, removeFileExtension_append _ _ (by decide)]
    show (⟨removeFirstOcc (generateACGTemplatePrefix y m).data
        ((generateACGTemplatePrefix y m).data ++ rest.data)⟩ : String) = rest
    rw [removeFirstOcc_append]
  · intro y m _ h6
    rw [generateACGTemplatePrefix, if_pos h6]
  · intro y m h7 _
    rw [generateACGTemplatePrefix, if_neg (by omega)]
  · intro rest
    have hfile : ("ACG_식대 정리_Template_25년 하반기_" : String) ++ rest ++ ".xlsx"
        = (⟨(("ACG_식대 정리_Template_25년 하반기_" : String).data ++ rest.data)
            ++ '.' :: ['x', 'l', 's', 'x']⟩ : String) := by
      apply String.ext
      simp
    simp only [cleanACGTemplateFileName]
    rw [hfile, removeFileExtension_append _ _ (by decide)]
    show (⟨removeFirstOcc ("ACG_식대 정리_Template_25년 하반기_" : String).data
        (("ACG_식대 정리_Template_25년 하반기_" : String).data ++ rest.data)⟩ : String) = rest
    rw [removeFirstOcc_append]

/-- Witness for claim C8: the amended general statement instantiated at year
2025, month 3 and employee name `"홍길동"`. -/
theorem cleanACGTemplateFileName_spec_witness :
    (2025 : Int) ≠ 0 ∧ (3 : Int) ≠ 0
    ∧ cleanACGTemplateFileName (generateACGTemplatePrefix 2025 3 ++ "홍길동" ++ ".xlsx")
        (some 2025) (some 3) = "홍길동" :=
  ⟨by decide, by decide, cleanACGTemplateFileName_spec.2.1 2025 3 "홍길동" (by decide) (by decide)⟩

/-- The claim C9 reading of the suffix policy, written from the spec's words:
strip the extension, then keep exactly the substring after the last
underscore (the whole name when there is no underscore). -/
def suffixAfterLastUnderscore (fileName : String) : String :=
  ⟨((removeFileExtension fileName).data.reverse.takeWhile (fun c => c != '_')).reverse⟩

/-- Counterexample to claim C9 as stated: for `"a_.xlsx"` the substring after
the last underscore of the extension-stripped name is empty, but
`split("_").pop()` yields the falsy `""` and the code falls back to the whole
de-extensioned name `"a_"`. -/
theorem cleanACGTemplateFileNameV2_counterexample :
    suffixAfterLastUnderscore "a_.xlsx" = ""
    ∧ cleanACGTemplateFileNameV2 "a_.xlsx" = "a_"
    ∧ cleanACGTemplateFileNameV2 "a_.xlsx" ≠ suffixAfterLastUnderscore "a_.xlsx" :=
  ⟨by decide, by decide, by decide⟩

/-- Claim C9 (amended: when the segment after the last underscore is empty
the whole de-extensioned name is returned, and when the de-extensioned name
is empty the original filename is returned): under the suffix-based policy
the function returns the substring after the last underscore of the
extension-stripped filename when that substring is nonempty — so
`"any_prefix_홍길동.xlsx"` yields `"홍길동"` — and the whole de-extensioned name
when no underscore is present. -/
theorem cleanACGTemplateFileNameV2_spec :
    cleanACGTemplateFileNameV2 "any_prefix_홍길동.xlsx" = "홍길동"
    ∧ (∀ (fn : String) (a b : List Char), removeFileExtension fn = ⟨a ++ '_' :: b⟩ →
        '_' ∉ b → b ≠ [] → cleanACGTemplateFileNameV2 fn = ⟨b⟩)
    ∧ (∀ (fn : String) (a : List Char), removeFileExtension fn = ⟨a ++ ['_']⟩ →
        cleanACGTemplateFileNameV2 fn = removeFileExtension fn)
    ∧ (∀ fn : String, '_' ∉ (removeFileExtension fn).data → removeFileExtension fn ≠ "" →
        cleanACGTemplateFileNameV2 fn = removeFileExtension fn)
    ∧ (∀ fn : String, removeFileExtension fn = "" → cleanACGTemplateFileNameV2 fn = fn) := by
  refine ⟨by decide, ?_, ?_, ?_, ?_⟩
  · intro fn a b he hb hbne
    have hne : (⟨a ++ '_' :: b⟩ : String) ≠ "" := by
      intro hc
      have hd : a ++ '_' :: b = ([] : List Char) := congrArg String.data hc
      simp at hd
    simp only [cleanACGTemplateFileNameV2, he]
    rw [if_pos hne]
    show (if ((jsSplit '_' (a ++ '_' :: b)).getLastD []).isEmpty then _ else _) = _
    rw [getLastD_jsSplit_append '_' hb a]
    rw [if_neg (by simpa [List.isEmpty_iff] using hbne)]
  · intro fn a he
    have hne : (⟨a ++ ['_']⟩ : String) ≠ "" := by
      intro hc
      have hd : a ++ ['_'] = ([] : List Char) := congrArg String.data hc
      simp at hd
    simp only [cleanACGTemplateFileNameV2, he]
    rw [if_pos hne]
    show (if ((jsSplit '_' (a ++ '_' :: ([] : List Char))).getLastD []).isEmpty then _ else _) = _
    rw [getLastD_jsSplit_append '_' (by simp) a]
    simp
  · intro fn hmem hne
    simp only [cleanACGTemplateFileNameV2]
    rw [if_pos hne, jsSplit_of_not_mem '_' hmem]
    have hd : (removeFileExtension fn).data ≠ [] := by
      intro hc
      exact hne (String.ext hc)
    rw [show ([(removeFileExtension fn).data].getLastD []) = (removeFileExtension fn).data from rfl]
    rw [if_neg (by simpa [List.isEmpty_iff] using hd)]
  · intro fn he
    simp only [cleanACGTemplateFileNameV2, he]
    rw [if_neg (by simp)]

/-- Witness for claim C9: the amended nonempty-suffix statement instantiated
at `"x_김.xlsx"`. -/
theorem cleanACGTemplateFileNameV2_spec_witness :
    removeFileExtension "x_김.xlsx" = (⟨"x".data ++ '_' :: "김".data⟩ : String)
    ∧ '_' ∉ "김".data ∧ "김".data ≠ []
    ∧ cleanACGTemplateFileNameV2 "x_김.xlsx" = (⟨"김".data⟩ : String) :=
  ⟨by decide, by decide, by decide,
    cleanACGTemplateFileNameV2_spec.2.1 "x_김.xlsx" "x".data "김".data (by decide) (by decide)
      (by decide)⟩

/-! ### Claims about the tabular extractor -/

theorem processRow_none_cases (row : XRow) (startCol : Nat)
    (h : row.isEmptyValues = true
      ∨ jsTruthy (row.getCell startCol) = false
      ∨ jsTruthy (row.getCell (startCol + 1)) = false
      ∨ jsParseInt (jsString (row.getCell startCol)) = none
      ∨ jsParseInt (jsString (row.getCell (startCol + 1))) = none) :
    processRow row startCol = none := by
  by_cases he : row.isEmptyValues
  · simp [processRow, he]
  · rcases h with h | h | h | h | h
    · exact absurd h he
    · simp [processRow, he, h]
    · simp [processRow, he, h]
    · simp only [processRow]
      rw [if_neg he]
      by_cases ht : (!(jsTruthy (row.getCell startCol))
          || !(jsTruthy (row.getCell (startCol + 1)))) = true
      · rw [if_pos ht]
      · rw [if_neg ht, h]
    · simp only [processRow]
      rw [if_neg he]
      by_cases ht : (!(jsTruthy (row.getCell startCol))
          || !(jsTruthy (row.getCell (startCol + 1)))) = true
      · rw [if_pos ht]
      · rw [if_neg ht, h]
        cases jsParseInt (jsString (row.getCell startCol)) <;> rfl

/-- Claim C4: with the default configuration, `processExcelFile` fails with
`sheetNotFound` exactly when the named sheet (default `"내역"`) is absent from
the workbook; when the sheet is present the result is the extraction output
(so no other extraction-level error arises — bad rows only get skipped); and
the per-file controller loop adds no employee entry for a document whose
extraction failed, so balance calculation is never invoked for it. -/
theorem processExcelFile_sheetNotFound_spec (wb : Workbook) (sheetName : Option String) :
    (getWorksheet wb (sheetName.getD defaultSheetName) = none →
      processExcelFile wb sheetName none
        = Except.error (ExtractError.sheetNotFound (sheetName.getD defaultSheetName)))
    ∧ (∀ ws, getWorksheet wb (sheetName.getD defaultSheetName) = some ws →
        ∃ rows, processExcelFile wb sheetName none = Except.ok rows
          ∧ extractData ws defaultDataRange = Except.ok rows)
    ∧ (∀ (nm : String) (files : List (String × Workbook)),
        getWorksheet wb defaultSheetName = none →
        buildEmployeeData ((nm, wb) :: files) = buildEmployeeData files) := by
  refine ⟨?_, ?_, ?_⟩
  · intro h
    simp [processExcelFile, h]
  · intro ws h
    obtain ⟨rows, hrows⟩ : ∃ rows, extractData ws defaultDataRange = Except.ok rows := ⟨_, rfl⟩
    refine ⟨rows, ?_, hrows⟩
    simp only [processExcelFile, h]
    exact hrows
  · intro nm files h
    have hpe : processExcelFile wb none none
        = Except.error (ExtractError.sheetNotFound defaultSheetName) := by
      simp [processExcelFile, h]
    simp [buildEmployeeData, List.filterMap_cons, hpe]

/-- Witness for claim C4: the empty workbook has no `"내역"` sheet, extraction
fails with `sheetNotFound`, and the per-file loop drops the file. -/
theorem processExcelFile_sheetNotFound_spec_witness :
    getWorksheet ([] : Workbook) "내역" = none
    ∧ processExcelFile ([] : Workbook) none none
        = Except.error (ExtractError.sheetNotFound "내역")
    ∧ buildEmployeeData [("e", ([] : Workbook))] = buildEmployeeData [] :=
  ⟨rfl, (processExcelFile_sheetNotFound_spec [] none).1 rfl,
    (processExcelFile_sheetNotFound_spec [] none).2.2 "e" [] rfl⟩

/-- Claim C5: a source row that is empty, or whose year or month cell is
falsy (empty/blank), or whose year or month does not parse as an integer,
contributes no emitted row; and extraction over the configured default range
raises no error whatever the cells contain — such rows are silently dropped.
-/
theorem extractData_skip_spec :
    (∀ (row : XRow) (startCol : Nat),
        (row.isEmptyValues = true
          ∨ jsTruthy (row.getCell startCol) = false
          ∨ jsTruthy (row.getCell (startCol + 1)) = false
          ∨ jsParseInt (jsString (row.getCell startCol)) = none
          ∨ jsParseInt (jsString (row.getCell (startCol + 1))) = none) →
        processRow row startCol = none)
    ∧ (∀ ws : Worksheet, ∃ rows, extractData ws defaultDataRange = Except.ok rows) :=
  ⟨processRow_none_cases, fun _ => ⟨_, rfl⟩⟩

/-- Witness for claim C5: a row whose year cell is the empty string is
dropped, and extraction over a worksheet of such rows still succeeds. -/
theorem extractData_skip_spec_witness :
    jsTruthy (CellValue.vStr "") = false
    ∧ processRow ⟨false, fun _ => CellValue.vStr ""⟩ 2 = none
    ∧ ∃ rows, extractData ⟨fun _ => ⟨false, fun _ => CellValue.vStr ""⟩⟩ defaultDataRange
        = Except.ok rows :=
  ⟨rfl, extractData_skip_spec.1 _ 2 (Or.inr (Or.inl rfl)), extractData_skip_spec.2 _⟩

/-- Worksheet for the claim C6 counterexample: row 3 carries year 2025, month
3 and the amount cell holds the number `-1`; all other rows are empty. -/
def wsC6 : Worksheet :=
  ⟨fun i =>
    if i = 3 then
      ⟨false, fun c =>
        if c = 2 then .vNum 2025 else if c = 3 then .vNum 3
        else if c = 10 then .vNum (-1) else .vNull⟩
    else ⟨true, fun _ => .vNull⟩⟩

/-- Counterexample to claim C6 as stated: a negative amount cell passes
through extraction unclamped, so an emitted `AttendanceRow` can have a
negative `amount`. -/
theorem extractData_negative_amount_counterexample :
    extractData wsC6 defaultDataRange
        = Except.ok [{ year := 2025, month := 3, workType := "", attendance := "", amount := -1 }]
    ∧ ({ year := 2025, month := 3, workType := "", attendance := "", amount := -1 } :
        ExcelRowData).amount < 0 :=
  ⟨rfl, by norm_num⟩

/-- Claim C6 (amended: the emitted `amount` equals the parsed `parseFloat`
value of the amount cell, which may be negative when the cell holds a
negative number; it is not always non-negative): a row whose year and month
validate is always emitted — the amount cell never causes an error or a
dropped row — its `amount` equals the parsed value of
`String(amountValue || 0)` whenever that value is finite, and a missing
(`null`) or NaN amount cell yields `amount = 0`.  (An amount parsing to
`±Infinity` has no exact-rational representative, hence the finiteness
scoping through `jsParseFloatFull`.) -/
theorem extractData_amount_default_spec (row : XRow) (startCol : Nat) (y mo : Int)
    (he : row.isEmptyValues = false)
    (hty : jsTruthy (row.getCell startCol) = true)
    (htm : jsTruthy (row.getCell (startCol + 1)) = true)
    (hy : jsParseInt (jsString (row.getCell startCol)) = some y)
    (hm : jsParseInt (jsString (row.getCell (startCol + 1))) = some mo) :
    ∃ r, processRow row startCol = some r
      ∧ r.amount = (jsParseFloat (jsString (if jsTruthy (row.getCell (startCol + 8))
            then row.getCell (startCol + 8) else CellValue.vNum 0))).getD 0
      ∧ (∀ q, jsParseFloatFull (jsString (if jsTruthy (row.getCell (startCol + 8))
            then row.getCell (startCol + 8) else CellValue.vNum 0)) = JsFloat.finite q →
          r.amount = q)
      ∧ ((row.getCell (startCol + 8) = CellValue.vNull
            ∨ jsParseFloatFull (jsString (row.getCell (startCol + 8))) = JsFloat.nan)
          → r.amount = 0) := by
  simp only [processRow]
  rw [if_neg (by simp [he]), if_neg (by simp [hty, htm]), hy, hm]
  refine ⟨_, rfl, rfl, ?_, ?_⟩
  · intro q hq
    show (jsParseFloat (jsString (if jsTruthy (row.getCell (startCol + 8))
        then row.getCell (startCol + 8) else CellValue.vNum 0))).getD 0 = q
    simp only [jsParseFloat]
    rw [hq]
    rfl
  · intro hcase
    show (jsParseFloat (jsString (if jsTruthy (row.getCell (startCol + 8))
        then row.getCell (startCol + 8) else CellValue.vNum 0))).getD 0 = 0
    rcases hcase with hnull | hnan
    · rw [hnull]
      rfl
    · by_cases htr : jsTruthy (row.getCell (startCol + 8)) = true
      · rw [if_pos htr]
        simp only [jsParseFloat]
        rw [hnan]
        rfl
      · rw [if_neg htr]
        rfl

/-- Row for the claim C6 witness: valid year and month, amount cell holding
the string `"-2.5e1"`, which parses to the finite value `-25`. -/
def c6WitnessRow : XRow :=
  ⟨false, fun c =>
    if c = 2 then .vNum 2025 else if c = 3 then .vNum 3
    else if c = 10 then .vStr "-2.5e1" else .vNull⟩

/-- Row for the second half of the claim C6 witness: valid year and month,
amount cell holding the unparseable string `"abc"`. -/
def c6WitnessRowNaN : XRow :=
  ⟨false, fun c =>
    if c = 2 then .vNum 2025 else if c = 3 then .vNum 3
    else if c = 10 then .vStr "abc" else .vNull⟩

/-- Witness for claim C6: the row whose amount cell parses to the finite
value `-25` is emitted with exactly that amount, and the row with the
unparseable amount cell is emitted with amount `0`. -/
theorem extractData_amount_default_spec_witness :
    jsParseFloatFull (jsString (c6WitnessRow.getCell (2 + 8))) = JsFloat.finite (-25)
    ∧ (∃ r, processRow c6WitnessRow 2 = some r ∧ r.amount = -25)
    ∧ jsParseFloatFull (jsString (c6WitnessRowNaN.getCell (2 + 8))) = JsFloat.nan
    ∧ (∃ r, processRow c6WitnessRowNaN 2 = some r ∧ r.amount = 0) := by
  refine ⟨rfl, ?_, rfl, ?_⟩
  · obtain ⟨r, hr, -, hfin, -⟩ :=
      extractData_amount_default_spec c6WitnessRow 2 2025 3 rfl rfl rfl rfl rfl
    exact ⟨r, hr, hfin (-25) rfl⟩
  · obtain ⟨r, hr, -, -, hnan⟩ :=
      extractData_amount_default_spec c6WitnessRowNaN 2 2025 3 rfl rfl rfl rfl rfl
    exact ⟨r, hr, hnan (Or.inr rfl)⟩

/-- Row for the claim C7 counterexample: valid year and month, and the
amount cell holding a formula object whose computed result is `"5000"`. -/
def c7FormulaAmountRow : XRow :=
  ⟨false, fun c =>
    if c = 2 then .vNum 2025 else if c = 3 then .vNum 3
    else if c = 10 then .vObj none (some "5000") (some "A1+B1") else .vNull⟩

/-- Row for the claim C7 counterexample: the year cell holds a formula object
whose computed result is `"2025"`. -/
def c7FormulaYearRow : XRow :=
  ⟨false, fun c =>
    if c = 2 then .vObj none (some "2025") (some "A1")
    else if c = 3 then .vNum 3 else .vNull⟩

/-- Counterexample to claim C7 as stated: not every cell value carrying a
computed form resolves to the computed text during extraction.  The
resolution chain would take the formula amount cell to its computed `"5000"`,
but the row loop stringifies that cell raw (`String(amountValue || 0)` gives
`"[object Object]"`) and emits amount `0`; and a formula-valued year cell —
computed result `"2025"` — stringifies the same way, fails `parseInt`, and
makes the row be skipped instead of resolving. -/
theorem getActualValue_scope_counterexample :
    getActualValue (CellValue.vObj none (some "5000") (some "A1+B1")) = "5000"
    ∧ processRow c7FormulaAmountRow 2
        = some { year := 2025, month := 3, workType := "", attendance := "", amount := 0 }
    ∧ ¬((0 : ℚ) = 5000)
    ∧ jsParseInt (jsString (CellValue.vObj none (some "2025") (some "A1"))) = none
    ∧ processRow c7FormulaYearRow 2 = none :=
  ⟨rfl, rfl, by norm_num, rfl, rfl⟩

/-- Claim C7 (amended: the resolution chain governs the work-type and
attendance cells, the only cells the extraction passes through
`getActualValue`; year, month and amount cells are stringified raw, so a
formula-valued year or month cell makes the row be skipped and a
formula-valued amount cell yields amount `0`): for those cells, a value
carrying a computed/display form resolves to the displayed text, then the
computed result, then the formula source, and a missing (`null`) value
resolves to the empty string; every emitted row's `workType` and `attendance`
are exactly these resolutions. -/
theorem getActualValue_spec (row : XRow) (startCol : Nat) (y mo : Int)
    (he : row.isEmptyValues = false)
    (hty : jsTruthy (row.getCell startCol) = true)
    (htm : jsTruthy (row.getCell (startCol + 1)) = true)
    (hy : jsParseInt (jsString (row.getCell startCol)) = some y)
    (hm : jsParseInt (jsString (row.getCell (startCol + 1))) = some mo) :
    getActualValue CellValue.vNull = ""
    ∧ (∀ (t r f : Option String), (t.isSome = true ∨ r.isSome = true ∨ f.isSome = true) →
        getActualValue (CellValue.vObj t r f)
          = ((t.orElse (fun _ => r)).orElse (fun _ => f)).getD "")
    ∧ ∃ r, processRow row startCol = some r
        ∧ r.workType = getActualValue (row.getCell (startCol + 4))
        ∧ r.attendance = getActualValue (row.getCell (startCol + 6)) := by
  refine ⟨rfl, ?_, ?_⟩
  · intro t r f h
    cases t with
    | some s => rfl
    | none =>
      cases r with
      | some s => rfl
      | none =>
        cases f with
        | some s => rfl
        | none => simp at h
  · simp only [processRow]
    rw [if_neg (by simp [he]), if_neg (by simp [hty, htm]), hy, hm]
    exact ⟨_, rfl, rfl, rfl⟩

/-- Row for the claim C7 witness: the work-type cell is a rich object with
display text `"업무일"`, the attendance cell a formula object with cached
result `"근무"` and no display text. -/
def c7WitnessRow : XRow :=
  ⟨false, fun c =>
    if c = 2 then .vNum 2025 else if c = 3 then .vNum 3
    else if c = 6 then .vObj (some "업무일") none none
    else if c = 8 then .vObj none (some "근무") (some "VLOOKUP(A1)") else .vNull⟩

/-- Witness for claim C7: the emitted row resolves the rich work-type cell to
its display text and the formula attendance cell to its cached result. -/
theorem getActualValue_spec_witness :
    jsTruthy (c7WitnessRow.getCell 2) = true
    ∧ jsParseInt (jsString (c7WitnessRow.getCell 2)) = some 2025
    ∧ getActualValue (c7WitnessRow.getCell (2 + 4)) = "업무일"
    ∧ getActualValue (c7WitnessRow.getCell (2 + 6)) = "근무"
    ∧ ∃ r, processRow c7WitnessRow 2 = some r
        ∧ r.workType = getActualValue (c7WitnessRow.getCell (2 + 4))
        ∧ r.attendance = getActualValue (c7WitnessRow.getCell (2 + 6)) :=
  ⟨rfl, rfl, rfl, rfl,
    (getActualValue_spec c7WitnessRow 2 2025 3 rfl rfl rfl rfl rfl).2.2⟩

/-- Claim C10: the falsiness filter runs before integer parsing, so a year or
month cell holding the number `0` — which does parse as the integer `0` —
still causes the row to be skipped, and every emitted row comes from truthy
year and month cells. -/
theorem extractData_falsy_zero_spec (row : XRow) (startCol : Nat) :
    jsParseInt (jsString (CellValue.vNum 0)) = some 0
    ∧ ((row.getCell startCol = CellValue.vNum 0 ∨ row.getCell (startCol + 1) = CellValue.vNum 0) →
        processRow row startCol = none)
    ∧ (∀ r, processRow row startCol = some r →
        jsTruthy (row.getCell startCol) = true ∧ jsTruthy (row.getCell (startCol + 1)) = true) := by
  refine ⟨rfl, ?_, ?_⟩
  · intro h
    refine processRow_none_cases row startCol ?_
    rcases h with h | h
    · exact Or.inr (Or.inl (by rw [h]; rfl))
    · exact Or.inr (Or.inr (Or.inl (by rw [h]; rfl)))
  · intro r hr
    constructor <;> by_contra hfalse
    · have hnone := processRow_none_cases row startCol
        (Or.inr (Or.inl (Bool.eq_false_iff.mpr hfalse)))
      rw [hnone] at hr
      exact Option.noConfusion hr
    · have hnone := processRow_none_cases row startCol
        (Or.inr (Or.inr (Or.inl (Bool.eq_false_iff.mpr hfalse))))
      rw [hnone] at hr
      exact Option.noConfusion hr

/-- Witness for claim C10: a row whose year cell is the number `0` is
skipped. -/
theorem extractData_falsy_zero_spec_witness :
    (⟨false, fun _ => CellValue.vNum 0⟩ : XRow).getCell 2 = CellValue.vNum 0
    ∧ processRow ⟨false, fun _ => CellValue.vNum 0⟩ 2 = none :=
  ⟨rfl, (extractData_falsy_zero_spec ⟨false, fun _ => CellValue.vNum 0⟩ 2).2.1 (Or.inl rfl)⟩
